import Mathlib

/-!
Verification of the ByteDance streaming-ASR protocol client
(`agents/ten_packages/extension/bytedance_asr_python`).

Bytes are modelled as `List Nat` (each element one byte value; Python
`bytes`/`bytearray` indexing and slicing map to list operations, with
out-of-range slices silently truncating exactly as in Python).  Python
functions that can raise are modelled as `Option`-valued, `none` being an
escaped exception.  The foreign functions `gzip.compress`,
`gzip.decompress`, `json.loads` and UTF-8 decoding are taken as parameters
of the definitions that call them, since the claims under study do not
depend on their behaviour.
-/

namespace Asr

/-! Protocol constants, from asr_client.py lines 11-32. -/

def PROTOCOL_VERSION : Nat := 0b0001
def DEFAULT_HEADER_SIZE : Nat := 0b0001

def CLIENT_FULL_REQUEST : Nat := 0b0001
def CLIENT_AUDIO_ONLY_REQUEST : Nat := 0b0010
def SERVER_FULL_RESPONSE : Nat := 0b1001
def SERVER_ACK : Nat := 0b1011
def SERVER_ERROR_RESPONSE : Nat := 0b1111

def NO_SEQUENCE : Nat := 0b0000
def POS_SEQUENCE : Nat := 0b0001
def NEG_SEQUENCE : Nat := 0b0010
def NEG_SEQUENCE_1 : Nat := 0b0011

def NO_SERIALIZATION : Nat := 0b0000
def JSON : Nat := 0b0001
def THRIFT : Nat := 0b0011
def CUSTOM_TYPE : Nat := 0b1111

def NO_COMPRESSION : Nat := 0b0000
def GZIP : Nat := 0b0001
def CUSTOM_COMPRESSION : Nat := 0b1111

/-! Byte-level helpers shared by the codec embedding. -/

/-- Python `(n).to_bytes(4, 'big')`.  Python raises OverflowError for
`n ≥ 2^32`; we truncate modulo `2^32` (every use in the client passes an
actual byte-string length, and the claims stay far below the bound). -/
def toBytes4BE (n : Nat) : List Nat :=
  [n / 2 ^ 24 % 256, n / 2 ^ 16 % 256, n / 2 ^ 8 % 256, n % 256]

/-- Python `int.from_bytes(bs, "big", signed=False)`; on the empty string
Python returns 0, as does the fold. -/
def intFromBytesBE (bs : List Nat) : Nat :=
  bs.foldl (fun a b => a * 256 + b) 0

/-- Python `int.from_bytes(bs, "big", signed=True)`: two's-complement
interpretation of however many bytes are present (0 for the empty string). -/
def intFromBytesBESigned (bs : List Nat) : Int :=
  let n := intFromBytesBE bs
  if n < 2 ^ (8 * bs.length - 1) then (n : Int)
  else (n : Int) - 2 ^ (8 * bs.length)

/-! Nibble arithmetic used to relate header construction and parsing. -/

theorem nib_or (v k : Nat) (hk : k < 16) : (v <<< 4) ||| k = 16 * v + k := by
  have h := Nat.mul_add_lt_is_or (i := 4) (b := k) (by omega) v
  rw [Nat.shiftLeft_eq, Nat.mul_comm, ← h]

theorem nib_low (v k : Nat) (hk : k < 16) : ((v <<< 4) ||| k) &&& 0xf = k := by
  rw [nib_or v k hk]
  have h := Nat.and_pow_two_sub_one_eq_mod (16 * v + k) 4
  norm_num at h ⊢
  omega

theorem nib_high (v k : Nat) (hk : k < 16) : ((v <<< 4) ||| k) >>> 4 = v := by
  rw [nib_or v k hk, Nat.shiftRight_eq_div_pow]
  norm_num
  omega

/-! Frame encoder, asr_client.py lines 34-62. -/

/-- asr_client.py lines 34-50, `generate_header`.  Builds the 4 fixed header
bytes and appends the extension bytes.  Python's `bytearray.append` would
raise for a byte value ≥ 256 (possible only when a caller passes nibble
values ≥ 16, which no call site does); the model keeps the raw `Nat`
produced by the same shift/or expressions. -/
def generate_header (version message_type message_type_specific_flags
    serial_method compression_type reserved_data : Nat)
    (extension_header : List Nat) : List Nat :=
  let header_size := extension_header.length / 4 + 1
  ((version <<< 4) ||| header_size) ::
  ((message_type <<< 4) ||| message_type_specific_flags) ::
  ((serial_method <<< 4) ||| compression_type) ::
  reserved_data :: extension_header

/-- asr_client.py lines 52-53: `generate_header()` with all defaults. -/
def generate_full_default_header : List Nat :=
  generate_header PROTOCOL_VERSION CLIENT_FULL_REQUEST NO_SEQUENCE JSON GZIP 0 []

/-- asr_client.py lines 55-56: audio-only message type, other defaults. -/
def generate_audio_default_header : List Nat :=
  generate_header PROTOCOL_VERSION CLIENT_AUDIO_ONLY_REQUEST NO_SEQUENCE JSON GZIP 0 []

/-- asr_client.py lines 58-62: audio-only message type with NEG_SEQUENCE
flags.  Imported by extension.py but never called there. -/
def generate_last_audio_default_header : List Nat :=
  generate_header PROTOCOL_VERSION CLIENT_AUDIO_ONLY_REQUEST NEG_SEQUENCE JSON GZIP 0 []

/-! Frame decoder, asr_client.py lines 64-105. -/

/-- JSON values, the result of Python `json.loads`. -/
inductive JVal where
  | null : JVal
  | bool : Bool → JVal
  | num : Int → JVal
  | str : String → JVal
  | list : List JVal → JVal
  | obj : List (String × JVal) → JVal

/-- The `payload_msg` slot of the dict returned by `parse_response`: raw
bytes when no deserialization applies, a JSON value after `json.loads`, or
a string after `str(payload_msg, "utf-8")`. -/
inductive PayloadMsg where
  | raw : List Nat → PayloadMsg
  | json : JVal → PayloadMsg
  | text : String → PayloadMsg

/-- The dict built by `parse_response`: the keys `seq`, `code`,
`payload_msg`, `payload_size`, each present (`some`) exactly when the
corresponding assignment in lines 74-104 runs. -/
structure ParseResult where
  seq : Option Int
  code : Option Nat
  payload_msg : Option PayloadMsg
  payload_size : Option Int

/-- The local variables of asr_client.py lines 65-71: the six nibble fields
and the reserved byte read off the first four bytes of a response. -/
structure HeaderFields where
  protocol_version : Nat
  header_size : Nat
  message_type : Nat
  message_type_specific_flags : Nat
  serialization_method : Nat
  message_compression : Nat
  reserved : Nat

/-- The local header fields computed by `parse_response` at asr_client.py
lines 65-71 from the first four bytes (`none` models the IndexError Python
raises on a shorter buffer).  `parse_response` consumes these locally; the
returned dict never contains them. -/
def parse_header_fields (res : List Nat) : Option HeaderFields :=
  match res with
  | b0 :: b1 :: b2 :: b3 :: _ =>
    some ⟨b0 >>> 4, b0 &&& 0x0f, b1 >>> 4, b1 &&& 0x0f, b2 >>> 4, b2 &&& 0x0f, b3⟩
  | _ => none

/-- asr_client.py lines 96-101: gzip-decompress when the compression nibble
says GZIP, then deserialize according to the serialization nibble.  `gunzip`,
`jloads` and `utf8` stand for `gzip.decompress`, `json.loads` and
`str(·, "utf-8")`; an exception from any of them (`none`) propagates. -/
def decode_payload_msg (gunzip : List Nat → Option (List Nat))
    (jloads : List Nat → Option JVal) (utf8 : List Nat → Option String)
    (message_compression serialization_method : Nat)
    (pm : List Nat) : Option PayloadMsg :=
  let step1 := if message_compression = GZIP then gunzip pm else some pm
  match step1 with
  | none => none
  | some bs =>
    if serialization_method = JSON then (jloads bs).map PayloadMsg.json
    else if serialization_method ≠ NO_SERIALIZATION then (utf8 bs).map PayloadMsg.text
    else some (PayloadMsg.raw bs)

/-- asr_client.py lines 72-105, the body of `parse_response` once the
header fields are read.  The slice `res[header_size * 4:]` is `List.drop`,
silently truncating to empty beyond the buffer end like the Python slice;
the `header_extensions` local of line 72 is dead and not modelled.  No
length validation of any kind is done: short payload slices feed
`int.from_bytes` as-is (yielding the value of however many bytes are
present). -/
def parse_response_with (gunzip : List Nat → Option (List Nat))
    (jloads : List Nat → Option JVal) (utf8 : List Nat → Option String)
    (hf : HeaderFields) (res : List Nat) : Option ParseResult :=
    let payload := res.drop (hf.header_size * 4)
    if hf.message_type = SERVER_FULL_RESPONSE then
      (decode_payload_msg gunzip jloads utf8 hf.message_compression
          hf.serialization_method (payload.drop 4)).map
        (fun pm => ⟨none, none, some pm,
          some (intFromBytesBESigned (payload.take 4))⟩)
    else if hf.message_type = SERVER_ACK then
      if 8 ≤ payload.length then
        (decode_payload_msg gunzip jloads utf8 hf.message_compression
            hf.serialization_method (payload.drop 8)).map
          (fun pm => ⟨some (intFromBytesBESigned (payload.take 4)), none, some pm,
            some (intFromBytesBE ((payload.drop 4).take 4))⟩)
      else
        some ⟨some (intFromBytesBESigned (payload.take 4)), none, none, none⟩
    else if hf.message_type = SERVER_ERROR_RESPONSE then
      (decode_payload_msg gunzip jloads utf8 hf.message_compression
          hf.serialization_method (payload.drop 8)).map
        (fun pm => ⟨none, some (intFromBytesBE (payload.take 4)), some pm,
          some (intFromBytesBE ((payload.drop 4).take 4))⟩)
    else
      some ⟨none, none, none, none⟩

/-- asr_client.py lines 64-105, `parse_response`, assembled from the header
read (lines 65-71) and the message-type dispatch (`parse_response_with`,
a structural split only). -/
def parse_response (gunzip : List Nat → Option (List Nat))
    (jloads : List Nat → Option JVal) (utf8 : List Nat → Option String)
    (res : List Nat) : Option ParseResult :=
  match parse_header_fields res with
  | none => none
  | some hf => parse_response_with gunzip jloads utf8 hf res

theorem parse_response_some (gz : List Nat → Option (List Nat))
    (j : List Nat → Option JVal) (u : List Nat → Option String)
    (res : List Nat) (hf : HeaderFields)
    (hp : parse_header_fields res = some hf) :
    parse_response gz j u res = parse_response_with gz j u hf res := by
  unfold parse_response
  rw [hp]

theorem parse_response_with_full (gz : List Nat → Option (List Nat))
    (j : List Nat → Option JVal) (u : List Nat → Option String)
    (hf : HeaderFields) (res : List Nat)
    (hmt : hf.message_type = SERVER_FULL_RESPONSE) :
    parse_response_with gz j u hf res =
      (decode_payload_msg gz j u hf.message_compression hf.serialization_method
          ((res.drop (hf.header_size * 4)).drop 4)).map
        (fun pm => ⟨none, none, some pm,
          some (intFromBytesBESigned ((res.drop (hf.header_size * 4)).take 4))⟩) := by
  unfold parse_response_with
  rw [if_pos hmt]

/-! Helper equations for the codec proofs. -/

theorem parse_header_fields_cons (x y z w : Nat) (rest : List Nat) :
    parse_header_fields (x :: y :: z :: w :: rest) =
      some ⟨x >>> 4, x &&& 0x0f, y >>> 4, y &&& 0x0f, z >>> 4, z &&& 0x0f, w⟩ := rfl

theorem intFromBytesBE_toBytes4BE (n : Nat) :
    intFromBytesBE (toBytes4BE n) = n % 2 ^ 32 := by
  simp [toBytes4BE, intFromBytesBE]
  omega

theorem intFromBytesBESigned_toBytes4BE (n : Nat) (h : n < 2 ^ 31) :
    intFromBytesBESigned (toBytes4BE n) = (n : Int) := by
  have hlen : (toBytes4BE n).length = 4 := by simp [toBytes4BE]
  have hmod : n % 2 ^ 32 = n := Nat.mod_eq_of_lt (by omega)
  simp only [intFromBytesBESigned, intFromBytesBE_toBytes4BE, hlen, hmod]
  rw [if_pos (by omega)]

/-- Claim C9, counterexample: with the one-byte extension header `[0]` the
built header is 5 bytes long, while the declared header-size word count is
`⌊1/4⌋ + 1 = 1`, and `4 × 1 ≠ 5`: the claimed invariant fails whenever the
extension length is not a multiple of 4. -/
theorem header_size_counterexample :
    (generate_header PROTOCOL_VERSION CLIENT_FULL_REQUEST NO_SEQUENCE JSON GZIP
        0 [0]).length = 5 ∧
    ((generate_header PROTOCOL_VERSION CLIENT_FULL_REQUEST NO_SEQUENCE JSON GZIP
        0 [0]).getD 0 0) &&& 0x0f = 1 ∧
    4 * 1 ≠ 5 := by decide

/-- Claim C9, amended: for every extension header whose length is a multiple
of 4 and below 60 bytes (so the word count fits the 4-bit field),
`generate_header` declares a header-size word count of `⌊len/4⌋ + 1` in the
low nibble of its first byte, the header's total length equals 4 × that
word count, and the payload appended after the header begins exactly at
offset 4 × word count. -/
theorem header_size_invariant_amended (mt fl s c r : Nat) (ext : List Nat)
    (hdvd : 4 ∣ ext.length) (hlen : ext.length < 60) :
    ((generate_header PROTOCOL_VERSION mt fl s c r ext).getD 0 0) &&& 0x0f
        = ext.length / 4 + 1 ∧
    (generate_header PROTOCOL_VERSION mt fl s c r ext).length
        = 4 * (ext.length / 4 + 1) ∧
    ∀ tail : List Nat,
      (generate_header PROTOCOL_VERSION mt fl s c r ext ++ tail).drop
          (4 * (ext.length / 4 + 1)) = tail := by
  have hk : ext.length / 4 + 1 < 16 := by omega
  have hlen4 : (generate_header PROTOCOL_VERSION mt fl s c r ext).length
      = 4 * (ext.length / 4 + 1) := by
    simp only [generate_header, List.length_cons]
    omega
  refine ⟨?_, hlen4, ?_⟩
  · show ((PROTOCOL_VERSION <<< 4) ||| (ext.length / 4 + 1)) &&& 0x0f
        = ext.length / 4 + 1
    exact nib_low PROTOCOL_VERSION _ hk
  · intro tail
    rw [← hlen4, List.drop_left]

/-- Witness for the amended C9 at the 4-byte extension header `[9,9,9,9]`
(word count 2, total length 8) followed by the payload `[7]`. -/
theorem header_size_invariant_amended_witness :
    4 ∣ ([9, 9, 9, 9] : List Nat).length ∧ ([9, 9, 9, 9] : List Nat).length < 60 ∧
    ((generate_header PROTOCOL_VERSION CLIENT_FULL_REQUEST NO_SEQUENCE JSON GZIP
        0 [9, 9, 9, 9]).getD 0 0) &&& 0x0f = 2 ∧
    (generate_header PROTOCOL_VERSION CLIENT_FULL_REQUEST NO_SEQUENCE JSON GZIP
        0 [9, 9, 9, 9]).length = 4 * 2 ∧
    ((generate_header PROTOCOL_VERSION CLIENT_FULL_REQUEST NO_SEQUENCE JSON GZIP
        0 [9, 9, 9, 9]) ++ [7]).drop (4 * 2) = [7] :=
  ⟨by decide, by decide,
   (header_size_invariant_amended CLIENT_FULL_REQUEST NO_SEQUENCE JSON GZIP 0
      [9, 9, 9, 9] (by decide) (by decide)).1,
   (header_size_invariant_amended CLIENT_FULL_REQUEST NO_SEQUENCE JSON GZIP 0
      [9, 9, 9, 9] (by decide) (by decide)).2.1,
   (header_size_invariant_amended CLIENT_FULL_REQUEST NO_SEQUENCE JSON GZIP 0
      [9, 9, 9, 9] (by decide) (by decide)).2.2 [7]⟩

/-- Claim C1, counterexample: the frame built by the client's own default
header (message type CLIENT_FULL_REQUEST) followed by the 4-byte big-endian
length and the payload `[1,2,3]` decodes to an empty result — none of the
payload bytes, nor any header field, appears in the returned dict, because
`parse_response` has no branch for client message types.  (The gunzip /
json / utf8 parameters are irrelevant here: no branch runs them.) -/
theorem parse_client_frame_no_payload :
    parse_response (fun bs => some bs) (fun _ => some JVal.null) (fun _ => some "")
      (generate_full_default_header ++ toBytes4BE 3 ++ [1, 2, 3]) =
      some ⟨none, none, none, none⟩ := rfl

/-- Claim C1, amended.  Two facts survive of the round-trip claim.
First, for every valid nibble combination (message type × flags ×
serialization × compression, each below 16) the header fields parsed by
lines 65-71 of `parse_response` recover exactly the values given to
`generate_header` — but only as local variables, never in the returned
dict.  Second, the payload bytes are recovered (`payload_msg`, with
`payload_size` equal to their count) only for a SERVER_FULL_RESPONSE frame
whose header declares no compression and no serialization; client message
types yield an empty result (see the counterexample), an ACK or error
frame consumes the leading payload bytes as seq/code words, and GZIP/JSON
nibbles make the decoder transform (or fail on) the raw bytes instead of
returning them. -/
theorem codec_header_and_payload_roundtrip
    (gz : List Nat → Option (List Nat)) (j : List Nat → Option JVal)
    (u : List Nat → Option String) (mt fl s c : Nat)
    (hmt : mt < 16) (hfl : fl < 16) (hsr : s < 16) (hcp : c < 16)
    (payload : List Nat) (hlen : payload.length < 2 ^ 31) :
    parse_header_fields (generate_header PROTOCOL_VERSION mt fl s c 0 []
        ++ toBytes4BE payload.length ++ payload) =
      some ⟨PROTOCOL_VERSION, 1, mt, fl, s, c, 0⟩ ∧
    parse_response gz j u
      (generate_header PROTOCOL_VERSION SERVER_FULL_RESPONSE fl NO_SERIALIZATION
          NO_COMPRESSION 0 [] ++ toBytes4BE payload.length ++ payload) =
      some ⟨none, none, some (PayloadMsg.raw payload),
        some (payload.length : Int)⟩ := by
  constructor
  · show parse_header_fields (((PROTOCOL_VERSION <<< 4) ||| 1) ::
        ((mt <<< 4) ||| fl) :: ((s <<< 4) ||| c) :: 0 ::
        (toBytes4BE payload.length ++ payload)) = _
    rw [parse_header_fields_cons, nib_high mt fl hfl, nib_low mt fl hfl,
      nib_high s c hcp, nib_low s c hcp]
    rfl
  · have h1 : parse_header_fields (generate_header PROTOCOL_VERSION
        SERVER_FULL_RESPONSE fl NO_SERIALIZATION NO_COMPRESSION 0 []
        ++ toBytes4BE payload.length ++ payload)
        = some ⟨1, 1, SERVER_FULL_RESPONSE, fl, 0, 0, 0⟩ := by
      show parse_header_fields (((PROTOCOL_VERSION <<< 4) ||| 1) ::
          ((SERVER_FULL_RESPONSE <<< 4) ||| fl) ::
          ((NO_SERIALIZATION <<< 4) ||| NO_COMPRESSION) :: 0 ::
          (toBytes4BE payload.length ++ payload)) = _
      rw [parse_header_fields_cons, nib_high SERVER_FULL_RESPONSE fl hfl,
        nib_low SERVER_FULL_RESPONSE fl hfl]
      rfl
    have hdrop : (generate_header PROTOCOL_VERSION SERVER_FULL_RESPONSE fl
        NO_SERIALIZATION NO_COMPRESSION 0 [] ++ toBytes4BE payload.length
        ++ payload).drop (1 * 4) = toBytes4BE payload.length ++ payload := rfl
    have htake : (toBytes4BE payload.length ++ payload).take 4
        = toBytes4BE payload.length := by
      simp [toBytes4BE]
    have hdrop4 : (toBytes4BE payload.length ++ payload).drop 4 = payload := by
      simp [toBytes4BE]
    have hd0 : ∀ pm, decode_payload_msg gz j u 0 0 pm
        = some (PayloadMsg.raw pm) := fun pm => rfl
    rw [parse_response_some gz j u _ _ h1, parse_response_with_full gz j u _ _ rfl]
    dsimp only
    rw [hdrop, htake, hdrop4, hd0,
      intFromBytesBESigned_toBytes4BE payload.length hlen]
    rfl

/-- Witness for the amended C1 at message type 9 (full response), flags 2,
serialization 3, compression 1 for the header half, and a 3-byte payload
for the payload half. -/
theorem codec_header_and_payload_roundtrip_witness :
    (9 : Nat) < 16 ∧ (2 : Nat) < 16 ∧ (3 : Nat) < 16 ∧ (1 : Nat) < 16 ∧
    ([5, 6, 7] : List Nat).length < 2 ^ 31 ∧
    parse_header_fields (generate_header PROTOCOL_VERSION 9 2 3 1 0 []
        ++ toBytes4BE ([5, 6, 7] : List Nat).length ++ [5, 6, 7]) =
      some ⟨PROTOCOL_VERSION, 1, 9, 2, 3, 1, 0⟩ ∧
    parse_response (fun bs => some bs) (fun _ => some JVal.null) (fun _ => some "")
      (generate_header PROTOCOL_VERSION SERVER_FULL_RESPONSE 2 NO_SERIALIZATION
          NO_COMPRESSION 0 [] ++ toBytes4BE ([5, 6, 7] : List Nat).length
          ++ [5, 6, 7]) =
      some ⟨none, none, some (PayloadMsg.raw [5, 6, 7]),
        some (([5, 6, 7] : List Nat).length : Int)⟩ :=
  ⟨by decide, by decide, by decide, by decide, by decide,
   (codec_header_and_payload_roundtrip (fun bs => some bs) (fun _ => some JVal.null)
      (fun _ => some "") 9 2 3 1 (by decide) (by decide) (by decide) (by decide)
      [5, 6, 7] (by decide)).1,
   (codec_header_and_payload_roundtrip (fun bs => some bs) (fun _ => some JVal.null)
      (fun _ => some "") 9 2 3 1 (by decide) (by decide) (by decide) (by decide)
      [5, 6, 7] (by decide)).2⟩

/-- Claim C8, counterexample: the 4-byte frame `[0x1f, 0x90, 0x00, 0x00]`
declares a 15-word (60-byte) header over a 4-byte buffer, and its
full-response branch then declares payload words over an empty payload —
yet `parse_response` returns a decoded result (empty raw payload, size 0)
instead of failing: no MalformedFrame error exists anywhere in the code. -/
theorem overdeclared_header_returns_result :
    parse_response (fun bs => some bs) (fun _ => some JVal.null) (fun _ => some "")
      [0x1f, 0x90, 0x00, 0x00] =
      some ⟨none, none, some (PayloadMsg.raw []), some 0⟩ := rfl

/-- Claim C8, amended: `parse_response` performs no length validation at
all.  Whenever the four header bytes are present and the header declares no
compression and no serialization (so no foreign decoder can throw), a
decoded result is returned for ANY declared header size and ANY declared
payload size: the slices beyond the buffer end silently truncate to empty
and `int.from_bytes` of a short slice yields the value of the bytes
present. -/
theorem parse_no_length_validation (gz : List Nat → Option (List Nat))
    (j : List Nat → Option JVal) (u : List Nat → Option String)
    (res : List Nat) (hf : HeaderFields)
    (hp : parse_header_fields res = some hf)
    (hs : hf.serialization_method = NO_SERIALIZATION)
    (hc : hf.message_compression = NO_COMPRESSION) :
    (parse_response gz j u res).isSome = true := by
  have hd : ∀ pm, decode_payload_msg gz j u hf.message_compression
      hf.serialization_method pm = some (PayloadMsg.raw pm) := by
    intro pm
    unfold decode_payload_msg
    rw [hc, hs]
    simp [GZIP, JSON, NO_SERIALIZATION, NO_COMPRESSION]
  rw [parse_response_some gz j u _ _ hp]
  unfold parse_response_with
  split_ifs <;> simp [hd]
  split_ifs <;> rfl

/-- Witness for the amended C8: a 4-byte buffer declaring a 60-byte header
still decodes to a result. -/
theorem parse_no_length_validation_witness :
    parse_header_fields [0x1f, 0x90, 0x00, 0x01] = some ⟨1, 15, 9, 0, 0, 0, 1⟩ ∧
    (parse_response (fun bs => some bs) (fun _ => some JVal.null) (fun _ => some "")
      [0x1f, 0x90, 0x00, 0x01]).isSome = true :=
  ⟨rfl, parse_no_length_validation (fun bs => some bs) (fun _ => some JVal.null)
    (fun _ => some "") [0x1f, 0x90, 0x00, 0x01] ⟨1, 15, 9, 0, 0, 0, 1⟩ rfl rfl rfl⟩

/-! Audio slicing, asr_client.py lines 159-167. -/

/-- asr_client.py lines 159-167, `AsrWsClient.slice_data`: the list of
`(chunk, last)` pairs the generator yields.  The Python loop guard is
`offset + chunk_size < data_len`, i.e. `chunk_size < (data.drop offset).length`;
the `while`-`else` clause yields the final `(data[offset:], True)` pair when
the guard fails.  The extra `0 < chunk_size` conjunct only encodes
termination: for `chunk_size = 0` the Python generator yields empty chunks
forever, never reaching the `else` (all claims assume `chunk_size > 0`). -/
def slice_data (data : List Nat) (chunk_size : Nat) : List (List Nat × Bool) :=
  if h : 0 < chunk_size ∧ chunk_size < data.length then
    (data.take chunk_size, false) :: slice_data (data.drop chunk_size) chunk_size
  else
    [(data, true)]
termination_by data.length
decreasing_by simp; omega

theorem slice_data_ne_nil (data : List Nat) (chunk_size : Nat) :
    slice_data data chunk_size ≠ [] := by
  rw [slice_data]
  split <;> simp

/-- Claim C2: for every byte string and every positive chunk size,
concatenating the yielded chunks in order reproduces the input exactly, and
the yielded terminal markers are `false` everywhere except on the very last
chunk. -/
theorem slice_data_concat_and_terminal (data : List Nat) (chunk_size : Nat)
    (h : 0 < chunk_size) :
    ((slice_data data chunk_size).map Prod.fst).flatten = data ∧
    (slice_data data chunk_size).map Prod.snd =
      List.replicate ((slice_data data chunk_size).length - 1) false ++ [true] := by
  clear h
  induction data, chunk_size using slice_data.induct with
  | case1 data cs hlt ih =>
    rw [slice_data, dif_pos hlt]
    refine ⟨?_, ?_⟩
    · simp [ih.1]
    · have hlen : 1 ≤ (slice_data (data.drop cs) cs).length :=
        List.length_pos.mpr (slice_data_ne_nil (data.drop cs) cs)
      simp only [List.map_cons, ih.2, List.length_cons]
      rw [show (slice_data (data.drop cs) cs).length + 1 - 1
            = ((slice_data (data.drop cs) cs).length - 1) + 1 by omega]
      rw [List.replicate_succ]
      simp
  | case2 data cs hge =>
    rw [slice_data, dif_neg hge]
    simp

/-- Witness for C2 at data `[1,2,3]` and chunk size 2 (chunks `[1,2]` then
the terminal `[3]`). -/
theorem slice_data_concat_and_terminal_witness :
    0 < 2 ∧
    (((slice_data [1, 2, 3] 2).map Prod.fst).flatten = [1, 2, 3] ∧
     (slice_data [1, 2, 3] 2).map Prod.snd =
       List.replicate ((slice_data [1, 2, 3] 2).length - 1) false ++ [true]) :=
  ⟨by decide, slice_data_concat_and_terminal [1, 2, 3] 2 (by decide)⟩

/-! Audio buffering session, extension.py lines 161-206. -/

/-- Frame bytes sent for one audio chunk, extension.py lines 188-191:
gzip-compress the chunk, prepend `generate_audio_default_header()` and the
4-byte big-endian length of the compressed payload.  `gz` stands for
`gzip.compress`. -/
def audio_frame_bytes (gz : List Nat → List Nat) (chunk : List Nat) : List Nat :=
  generate_audio_default_header ++ toBytes4BE (gz chunk).length ++ gz chunk

/-- Mutable extension state touched by the audio path: the byte buffer, the
frames sent so far (in send order), the `stopped` flag, and whether the
websocket is open and connected (`self.ws` non-None and `self.connected`,
merged into one flag; the send-failure handler of lines 194-197 that clears
`connected` fires only on an external exception, and executions are
modelled exception-free). -/
structure SessState where
  buffer : List Nat
  sent : List (List Nat)
  stopped : Bool
  wsOpen : Bool

def initSessState : SessState := ⟨[], [], false, true⟩

/-- extension.py lines 183-193: the loop `while len(self.buffer) >= self.chunk_size`,
emitting one framed chunk per iteration.  Returns the frames emitted (in
order) and the final buffer.  As in `slice_data`, the `0 < chunk_size`
conjunct only encodes termination (with `chunk_size = 0` the Python loop
never exits once entered). -/
def drain_buffer (buffer : List Nat) (gz : List Nat → List Nat)
    (chunk_size : Nat) : List (List Nat) × List Nat :=
  if h : 0 < chunk_size ∧ chunk_size ≤ buffer.length then
    let rest := drain_buffer (buffer.drop chunk_size) gz chunk_size
    (audio_frame_bytes gz (buffer.take chunk_size) :: rest.1, rest.2)
  else
    ([], buffer)
termination_by buffer.length
decreasing_by simp; omega

/-- extension.py lines 161-197, `on_audio_frame` on one incoming frame
buffer: return early when the websocket is closed/disconnected or the frame
is empty, otherwise extend the buffer and drain it chunk by chunk.  The
`stream_id` bookkeeping of lines 171-175 does not touch the audio path and
is modelled in the reconciler section. -/
def on_audio_frame (gz : List Nat → List Nat) (chunk_size : Nat)
    (st : SessState) (frame_buf : List Nat) : SessState :=
  if st.wsOpen = false then st
  else if frame_buf = [] then st
  else
    let d := drain_buffer (st.buffer ++ frame_buf) gz chunk_size
    ⟨d.2, st.sent ++ d.1, st.stopped, st.wsOpen⟩

/-- extension.py lines 199-206, `on_stop`: set `stopped`, close and clear
the websocket.  No frame is sent and the buffer is not touched. -/
def on_stop (st : SessState) : SessState :=
  ⟨st.buffer, st.sent, true, false⟩

/-- A whole session on the audio path: the initial (connected) state fed
each incoming audio frame in order. -/
def run_session (gz : List Nat → List Nat) (chunk_size : Nat)
    (frames : List (List Nat)) : SessState :=
  frames.foldl (on_audio_frame gz chunk_size) initSessState

/-- Specification-side: the maximal list of complete `cs`-sized chunks at
the front of `data`, in order. -/
def fullChunks (data : List Nat) (cs : Nat) : List (List Nat) :=
  if h : 0 < cs ∧ cs ≤ data.length then
    data.take cs :: fullChunks (data.drop cs) cs
  else []
termination_by data.length
decreasing_by simp; omega

/-- Specification-side: what remains of `data` after removing its complete
`cs`-sized chunks. -/
def chunkRem (data : List Nat) (cs : Nat) : List Nat :=
  if h : 0 < cs ∧ cs ≤ data.length then chunkRem (data.drop cs) cs else data
termination_by data.length
decreasing_by simp; omega

theorem fullChunks_pos (cs : Nat) (data : List Nat)
    (h : 0 < cs ∧ cs ≤ data.length) :
    fullChunks data cs = data.take cs :: fullChunks (data.drop cs) cs := by
  rw [fullChunks, dif_pos h]

theorem fullChunks_neg (cs : Nat) (data : List Nat)
    (h : ¬(0 < cs ∧ cs ≤ data.length)) : fullChunks data cs = [] := by
  rw [fullChunks, dif_neg h]

theorem chunkRem_pos (cs : Nat) (data : List Nat)
    (h : 0 < cs ∧ cs ≤ data.length) :
    chunkRem data cs = chunkRem (data.drop cs) cs := by
  rw [chunkRem, dif_pos h]

theorem chunkRem_neg (cs : Nat) (data : List Nat)
    (h : ¬(0 < cs ∧ cs ≤ data.length)) : chunkRem data cs = data := by
  rw [chunkRem, dif_neg h]

theorem chunkRem_small (cs : Nat) (data : List Nat) :
    ¬ (0 < cs ∧ cs ≤ (chunkRem data cs).length) := by
  induction data, cs using chunkRem.induct with
  | case1 data cs h ih =>
    rw [chunkRem_pos cs data h]
    exact ih
  | case2 data cs h =>
    rw [chunkRem_neg cs data h]
    exact h

theorem drain_buffer_eq (gz : List Nat → List Nat) (cs : Nat)
    (buffer : List Nat) :
    drain_buffer buffer gz cs =
      ((fullChunks buffer cs).map (audio_frame_bytes gz), chunkRem buffer cs) := by
  induction buffer, gz, cs using drain_buffer.induct with
  | case1 buffer gz cs h ih =>
    rw [drain_buffer, dif_pos h, fullChunks_pos cs buffer h,
      chunkRem_pos cs buffer h, ih]
    simp
  | case2 buffer gz cs h =>
    rw [drain_buffer, dif_neg h, fullChunks_neg cs buffer h,
      chunkRem_neg cs buffer h]
    simp

theorem fullChunks_append (cs : Nat) (b a : List Nat) :
    fullChunks (a ++ b) cs = fullChunks a cs ++ fullChunks (chunkRem a cs ++ b) cs ∧
    chunkRem (a ++ b) cs = chunkRem (chunkRem a cs ++ b) cs := by
  induction a, cs using fullChunks.induct with
  | case1 a cs h ih =>
    have h2 : 0 < cs ∧ cs ≤ (a ++ b).length := ⟨h.1, by simp; omega⟩
    have hta : (a ++ b).take cs = a.take cs :=
      List.take_append_of_le_length h.2
    have hda : (a ++ b).drop cs = a.drop cs ++ b :=
      List.drop_append_of_le_length h.2
    constructor
    · rw [fullChunks_pos cs (a ++ b) h2, hta, hda, (ih).1,
        fullChunks_pos cs a h, chunkRem_pos cs a h]
      simp
    · rw [chunkRem_pos cs (a ++ b) h2, hda, (ih).2, chunkRem_pos cs a h]
  | case2 a cs h =>
    rw [fullChunks_neg cs a h, chunkRem_neg cs a h]
    simp

/-- The audio path invariant: starting from any connected state whose
buffer is already drained, folding a list of incoming frames leaves exactly
the frames for the complete chunks of the concatenated input appended to
`sent`, with the incomplete remainder in the buffer. -/
theorem foldl_on_audio_frame (gz : List Nat → List Nat) (cs : Nat)
    (fs : List (List Nat)) :
    ∀ st : SessState, st.wsOpen = true →
      ¬ (0 < cs ∧ cs ≤ st.buffer.length) →
      fs.foldl (on_audio_frame gz cs) st =
        ⟨chunkRem (st.buffer ++ fs.flatten) cs,
         st.sent ++ (fullChunks (st.buffer ++ fs.flatten) cs).map (audio_frame_bytes gz),
         st.stopped, true⟩ := by
  induction fs with
  | nil =>
    intro st hw hbuf
    simp only [List.foldl_nil, List.flatten_nil, List.append_nil]
    rw [chunkRem_neg cs st.buffer hbuf, fullChunks_neg cs st.buffer hbuf]
    cases st
    simp_all
  | cons fb rest ih =>
    intro st hw hbuf
    simp only [List.foldl_cons, List.flatten_cons]
    by_cases hfb : fb = []
    · subst hfb
      have hskip : on_audio_frame gz cs st [] = st := by
        unfold on_audio_frame
        rw [hw]
        simp
      rw [hskip, ih st hw hbuf]
      simp
    · have hstep : on_audio_frame gz cs st fb =
          ⟨chunkRem (st.buffer ++ fb) cs,
           st.sent ++ (fullChunks (st.buffer ++ fb) cs).map (audio_frame_bytes gz),
           st.stopped, st.wsOpen⟩ := by
        unfold on_audio_frame
        rw [hw]
        simp only [Bool.true_eq_false, if_false, if_neg hfb, drain_buffer_eq]
      rw [hstep, hw, ih _ rfl (chunkRem_small cs (st.buffer ++ fb))]
      have hfc := fullChunks_append cs (rest.flatten) (st.buffer ++ fb)
      simp only [List.append_assoc] at hfc ⊢
      rw [hfc.1, hfc.2]
      simp

/-- Claim C5, counterexample: the single frame sent for a full chunk in an
ordinary session carries message-type-specific flags NO_SEQUENCE (0b0000),
not the claimed POS_SEQUENCE (0b0001): `generate_audio_default_header`
leaves the flags at their default. -/
theorem audio_flags_counterexample :
    ((run_session (fun bs => bs) 2 [[7, 8]]).sent.map
        (fun f => (f.getD 1 0) &&& 0x0f)) = [NO_SEQUENCE] ∧
    NO_SEQUENCE ≠ POS_SEQUENCE := by
  constructor
  · simp [run_session, initSessState, on_audio_frame, drain_buffer,
      audio_frame_bytes, generate_audio_default_header, generate_header,
      toBytes4BE, NO_SEQUENCE]
    decide
  · decide

theorem audio_frame_bytes_byte1 (gz : List Nat → List Nat) (chunk : List Nat) :
    (audio_frame_bytes gz chunk).getD 1 0
      = (CLIENT_AUDIO_ONLY_REQUEST <<< 4) ||| NO_SEQUENCE := rfl

/-- Claim C5, amended: every outgoing audio frame wraps the gzip of one
complete buffered chunk with the audio-only message type, but with
message-type-specific flags NO_SEQUENCE (not POS_SEQUENCE); the frames are
sent in exactly the order the chunks were buffered; and no terminal
NEG_SEQUENCE chunk is ever sent — `on_stop` sends nothing, so no frame of a
session carries a terminal flag. -/
theorem audio_chunks_framing (gz : List Nat → List Nat) (cs : Nat)
    (fs : List (List Nat)) (h : 0 < cs) :
    (run_session gz cs fs).sent
        = (fullChunks fs.flatten cs).map (audio_frame_bytes gz) ∧
    (∀ f ∈ (run_session gz cs fs).sent,
        (f.getD 1 0) >>> 4 = CLIENT_AUDIO_ONLY_REQUEST ∧
        (f.getD 1 0) &&& 0x0f = NO_SEQUENCE ∧
        (f.getD 1 0) &&& 0x0f ≠ NEG_SEQUENCE) ∧
    (on_stop (run_session gz cs fs)).sent = (run_session gz cs fs).sent := by
  clear h
  have hrun := foldl_on_audio_frame gz cs fs initSessState rfl
    (by simp [initSessState]; omega)
  refine ⟨?_, ?_, ?_⟩
  · rw [run_session, hrun]
    simp [initSessState]
  · intro f hf
    rw [run_session, hrun] at hf
    simp only [initSessState, List.nil_append, List.mem_map] at hf
    obtain ⟨chunk, _, hfe⟩ := hf
    rw [← hfe, audio_frame_bytes_byte1]
    refine ⟨nib_high _ _ (by decide), ?_, ?_⟩
    · rw [nib_low _ _ (by decide)]
    · rw [nib_low _ _ (by decide)]
      decide
  · rfl

/-- Witness for the amended C5: two 3-byte frames with chunk size 4 produce
exactly one framed chunk (the first four bytes) with flags nibble 0, and a
2-byte remainder stays in the buffer. -/
theorem audio_chunks_framing_witness :
    0 < 4 ∧
    ((run_session (fun bs => bs) 4 [[1, 2, 3], [4, 5, 6]]).sent
        = (fullChunks ([[1, 2, 3], [4, 5, 6]] : List (List Nat)).flatten 4).map
            (audio_frame_bytes (fun bs => bs)) ∧
     (∀ f ∈ (run_session (fun bs => bs) 4 [[1, 2, 3], [4, 5, 6]]).sent,
        (f.getD 1 0) >>> 4 = CLIENT_AUDIO_ONLY_REQUEST ∧
        (f.getD 1 0) &&& 0x0f = NO_SEQUENCE ∧
        (f.getD 1 0) &&& 0x0f ≠ NEG_SEQUENCE) ∧
     (on_stop (run_session (fun bs => bs) 4 [[1, 2, 3], [4, 5, 6]])).sent
        = (run_session (fun bs => bs) 4 [[1, 2, 3], [4, 5, 6]]).sent) :=
  ⟨by decide, audio_chunks_framing (fun bs => bs) 4 [[1, 2, 3], [4, 5, 6]] (by decide)⟩

/-- Claim C6: the code violates it.  With chunk size 4, after one 3-byte
audio frame the session holds a 3-byte residual buffer; `on_stop` closes
the websocket without flushing it: no frame at all is sent (in particular
no terminal chunk), and the residual bytes are silently dropped.  The
intended terminal frame builder `generate_last_audio_default_header` is
imported by extension.py but never called. -/
theorem stop_drops_residual_buffer :
    (on_stop (run_session (fun bs => bs) 4 [[1, 2, 3]])).sent = [] ∧
    (on_stop (run_session (fun bs => bs) 4 [[1, 2, 3]])).buffer = [1, 2, 3] ∧
    (on_stop (run_session (fun bs => bs) 4 [[1, 2, 3]])).buffer ≠ [] := by
  refine ⟨?_, ?_, ?_⟩ <;>
    simp [run_session, initSessState, on_audio_frame, on_stop, drain_buffer]

/-! Transcript reconciliation, extension.py lines 112-147 and 208-220. -/

/-- Python dict lookup on a JSON object, `d.get(k)`: `none` when the key is
absent (JSON objects decoded by `json.loads` have unique keys). -/
def jLookup (kvs : List (String × JVal)) (k : String) : Option JVal :=
  match kvs with
  | [] => none
  | (k2, v) :: rest => if k2 = k then some v else jLookup rest k

/-- extension.py line 120, the test `payload.get('code') != 1000` inverted:
true exactly when the payload carries the numeric success code 1000. -/
def isCode1000 (v : Option JVal) : Bool :=
  match v with
  | some (JVal.num n) => n == 1000
  | _ => false

/-- Python `x.get('text', '')` on a result element: the string under
`text`, or the empty-string default when the key is absent.  (A non-dict
element or a non-string value would make the Python comparison/strip below
raise; the claims exercise neither, and either way no event is emitted, so
the model returns the same default.) -/
def getTextField (v : JVal) : String :=
  match v with
  | JVal.obj kvs =>
    match jLookup kvs "text" with
    | some (JVal.str s) => s
    | _ => ""
  | _ => ""

/-- extension.py lines 126-137: starting from `text = ""`, `is_final = False`,
a list-valued non-empty `result` takes its FIRST element's `text` with
`is_final = True`; a dict-valued `result` takes its own `text` with
`is_final = False`; anything else (including the empty list) leaves the
defaults.  No `utterances` key is ever inspected. -/
def extract_text_final (result : JVal) : String × Bool :=
  match result with
  | JVal.list (r :: _) => (getTextField r, true)
  | JVal.obj kvs => (getTextField (JVal.obj kvs), false)
  | _ => ("", false)

/-- Python `str.strip()` emptiness: true when every character is
whitespace (so `if not text.strip()` fires). -/
def isPySpace (c : Char) : Bool :=
  c == ' ' || c == '\t' || c == '\n' || c == '\r' || c == '\x0b' || c == '\x0c'

def stripIsEmpty (s : String) : Bool :=
  s.toList.all isPySpace

/-- The Data message assembled by `_send_text`, extension.py lines 214-218:
`end_of_segment` always mirrors `is_final`. -/
structure TextData where
  text : String
  is_final : Bool
  stream_id : Int
  end_of_segment : Bool
deriving DecidableEq

/-- extension.py lines 208-220, `_send_text`: no Data message is sent when
`text.strip()` is empty, otherwise exactly one is sent. -/
def send_text (text : String) (is_final : Bool) (stream_id : Int) : List TextData :=
  if stripIsEmpty text then [] else [⟨text, is_final, stream_id, is_final⟩]

/-- One receive-loop iteration viewed at the payload level: what
extension.py lines 118-147 do with one decoded `payload_msg`.  `forwarded`
records the `(text, is_final)` pairs passed to `_send_text` (the guard of
line 140 passed), `delivered` the Data messages `_send_text` actually sends,
`errorSurfaced` whether the `log_error` of line 121 ran, and `last_text` the
value of `self.last_text` after the iteration (line 147 runs after the
`_send_text` call, also when `_send_text` sent nothing). -/
structure StepOut where
  forwarded : List (String × Bool)
  delivered : List TextData
  errorSurfaced : Bool
  last_text : String

def process_payload (payload : List (String × JVal)) (stream_id : Int)
    (last_text : String) : StepOut :=
  if isCode1000 (jLookup payload "code") = false then
    ⟨[], [], true, last_text⟩
  else
    match jLookup payload "result" with
    | none => ⟨[], [], false, last_text⟩
    | some r =>
      let tf := extract_text_final r
      if tf.1 ≠ "" ∧ tf.1 ≠ last_text then
        ⟨[tf], send_text tf.1 tf.2 stream_id, false, tf.1⟩
      else
        ⟨[], [], false, last_text⟩

/-- The receive loop over a list of decoded payloads, threading
`self.last_text` and concatenating the forwarded pairs and delivered Data
messages in order. -/
def process_payloads (ps : List (List (String × JVal))) (stream_id : Int)
    (last_text : String) : List (String × Bool) × List TextData × String :=
  match ps with
  | [] => ([], [], last_text)
  | p :: rest =>
    let s := process_payload p stream_id last_text
    let r := process_payloads rest stream_id s.last_text
    (s.forwarded ++ r.1, s.delivered ++ r.2.1, r.2.2)

/-- The text a payload would contribute: `some` of the extracted text when
the payload has the success code and a `result` key (specification-side
helper). -/
def payloadText (p : List (String × JVal)) : Option String :=
  if isCode1000 (jLookup p "code") = false then none
  else
    match jLookup p "result" with
    | none => none
    | some r => some (extract_text_final r).1

theorem payloadText_cases (p : List (String × JVal)) (t : String)
    (h : payloadText p = some t) :
    isCode1000 (jLookup p "code") = true ∧
    ∃ r, jLookup p "result" = some r ∧ (extract_text_final r).1 = t := by
  unfold payloadText at h
  by_cases hc : isCode1000 (jLookup p "code") = false
  · rw [if_pos hc] at h
    exact absurd h (by simp)
  · rw [if_neg hc] at h
    cases hres : jLookup p "result" with
    | none => rw [hres] at h; exact absurd h (by simp)
    | some r =>
      rw [hres] at h
      refine ⟨by simpa using hc, r, rfl, by simpa using h⟩

theorem process_payload_noresult (p : List (String × JVal)) (sid : Int)
    (lt : String)
    (hc : isCode1000 (jLookup p "code") = true)
    (hr : jLookup p "result" = none) :
    process_payload p sid lt = ⟨[], [], false, lt⟩ := by
  unfold process_payload
  rw [if_neg (by simp [hc]), hr]

theorem process_payload_skip (p : List (String × JVal)) (sid : Int)
    (lt : String) (r : JVal)
    (hc : isCode1000 (jLookup p "code") = true)
    (hr : jLookup p "result" = some r)
    (hno : ¬ ((extract_text_final r).1 ≠ "" ∧ (extract_text_final r).1 ≠ lt)) :
    process_payload p sid lt = ⟨[], [], false, lt⟩ := by
  unfold process_payload
  rw [if_neg (by simp [hc]), hr]
  show (if (extract_text_final r).1 ≠ "" ∧ (extract_text_final r).1 ≠ lt then
      (⟨[extract_text_final r],
        send_text (extract_text_final r).1 (extract_text_final r).2 sid,
        false, (extract_text_final r).1⟩ : StepOut)
    else ⟨[], [], false, lt⟩) = ⟨[], [], false, lt⟩
  rw [if_neg hno]

theorem process_payload_emit (p : List (String × JVal)) (sid : Int)
    (lt : String) (r : JVal)
    (hc : isCode1000 (jLookup p "code") = true)
    (hr : jLookup p "result" = some r)
    (hyes : (extract_text_final r).1 ≠ "" ∧ (extract_text_final r).1 ≠ lt) :
    process_payload p sid lt =
      ⟨[extract_text_final r],
       send_text (extract_text_final r).1 (extract_text_final r).2 sid,
       false, (extract_text_final r).1⟩ := by
  unfold process_payload
  rw [if_neg (by simp [hc]), hr]
  show (if (extract_text_final r).1 ≠ "" ∧ (extract_text_final r).1 ≠ lt then
      (⟨[extract_text_final r],
        send_text (extract_text_final r).1 (extract_text_final r).2 sid,
        false, (extract_text_final r).1⟩ : StepOut)
    else ⟨[], [], false, lt⟩) = _
  rw [if_pos hyes]

theorem process_payloads_saturated (sid : Int) (t : String)
    (ps : List (List (String × JVal))) (hall : ∀ p ∈ ps, payloadText p = some t) :
    process_payloads ps sid t = ([], [], t) := by
  induction ps with
  | nil => rfl
  | cons p rest ih =>
    obtain ⟨hc, r, hr, hrt⟩ := payloadText_cases p t (hall p (by simp))
    have hskip := process_payload_skip p sid t r hc hr (by rw [hrt]; simp)
    unfold process_payloads
    rw [hskip]
    have := ih (fun q hq => hall q (by simp [hq]))
    simp [this]

theorem process_payload_error (p : List (String × JVal)) (sid : Int)
    (lt : String) (h : isCode1000 (jLookup p "code") = false) :
    process_payload p sid lt = ⟨[], [], true, lt⟩ := by
  unfold process_payload
  rw [if_pos h]

/-- Claim C7: a decoded payload whose `code` is not the numeric success
code 1000 surfaces an error (the `log_error` of line 121 runs) and
produces nothing else: no text is forwarded, no Data message is delivered,
and `last_text` is unchanged. -/
theorem nonsuccess_code_no_transcript (p : List (String × JVal)) (sid : Int)
    (lt : String) (h : isCode1000 (jLookup p "code") = false) :
    process_payload p sid lt = ⟨[], [], true, lt⟩ :=
  process_payload_error p sid lt h

/-- Witness for C7 at the error payload `{"code": 45000000}`. -/
theorem nonsuccess_code_no_transcript_witness :
    isCode1000 (jLookup [("code", JVal.num 45000000)] "code") = false ∧
    process_payload [("code", JVal.num 45000000)] 0 "" = ⟨[], [], true, ""⟩ :=
  ⟨rfl, nonsuccess_code_no_transcript [("code", JVal.num 45000000)] 0 "" rfl⟩

/-- The scenario payload of claim C3: code 1000 with
`result = [{"utterances": [{"text": "hello", "definite": true}]}]`. -/
def scenario_payload : List (String × JVal) :=
  [("code", JVal.num 1000),
   ("result", JVal.list [JVal.obj [("utterances",
      JVal.list [JVal.obj [("text", JVal.str "hello"),
                           ("definite", JVal.bool true)]])]])]

/-- Claim C3, counterexample: the scenario payload yields NO forwarded
event at all (let alone one with text "hello"): the code takes
`result[0].get('text', '')`, and the first result element has no `text`
key — the `utterances` list is never inspected. -/
theorem scenario_payload_yields_no_event :
    (process_payload scenario_payload 0 "").forwarded = [] ∧
    (process_payload scenario_payload 0 "").delivered = [] ∧
    (process_payload scenario_payload 0 "").last_text = "" := by
  refine ⟨rfl, rfl, rfl⟩

/-- Claim C3, amended: a list-valued non-empty `result` contributes its
FIRST element's `text` field with `is_final = true` (the `definite` flags
and the `utterances` list are ignored); a dict-valued `result` contributes
its own `text` with `is_final = false`; and the scenario payload of the
claim forwards nothing, because its first result element carries no `text`
key. -/
theorem extraction_first_element_rule :
    (∀ p : List (String × JVal), ∀ sid : Int, ∀ lt : String, ∀ r : JVal,
      ∀ rs : List JVal, ∀ ev ∈ (process_payload p sid lt).forwarded,
        jLookup p "result" = some (JVal.list (r :: rs)) →
        ev = (getTextField r, true)) ∧
    (∀ p : List (String × JVal), ∀ sid : Int, ∀ lt : String,
      ∀ kvs : List (String × JVal), ∀ ev ∈ (process_payload p sid lt).forwarded,
        jLookup p "result" = some (JVal.obj kvs) → ev.2 = false) ∧
    (∀ sid : Int, ∀ lt : String,
      (process_payload scenario_payload sid lt).forwarded = []) := by
  refine ⟨?_, ?_, ?_⟩
  · intro p sid lt r rs ev hev hr
    by_cases hc : isCode1000 (jLookup p "code") = true
    · by_cases hyes : (extract_text_final (JVal.list (r :: rs))).1 ≠ "" ∧
          (extract_text_final (JVal.list (r :: rs))).1 ≠ lt
      · rw [process_payload_emit p sid lt _ hc hr hyes] at hev
        simp at hev
        rw [hev]
        rfl
      · rw [process_payload_skip p sid lt _ hc hr hyes] at hev
        simp at hev
    · rw [process_payload_error p sid lt (by simpa using hc)] at hev
      simp at hev
  · intro p sid lt kvs ev hev hr
    by_cases hc : isCode1000 (jLookup p "code") = true
    · by_cases hyes : (extract_text_final (JVal.obj kvs)).1 ≠ "" ∧
          (extract_text_final (JVal.obj kvs)).1 ≠ lt
      · rw [process_payload_emit p sid lt _ hc hr hyes] at hev
        simp at hev
        rw [hev]
        rfl
      · rw [process_payload_skip p sid lt _ hc hr hyes] at hev
        simp at hev
    · rw [process_payload_error p sid lt (by simpa using hc)] at hev
      simp at hev
  · intro sid lt
    have hr : jLookup scenario_payload "result"
        = some (JVal.list [JVal.obj [("utterances",
            JVal.list [JVal.obj [("text", JVal.str "hello"),
                                 ("definite", JVal.bool true)]])]]) := rfl
    rw [process_payload_skip scenario_payload sid lt _ rfl hr (by simp [extract_text_final, getTextField, jLookup])]

/-- Witness for the amended C3: a payload whose list-valued result has
`text: "hi"` in its first element forwards exactly `("hi", true)`. -/
theorem extraction_first_element_rule_witness :
    jLookup [("code", JVal.num 1000),
             ("result", JVal.list [JVal.obj [("text", JVal.str "hi")]])] "result"
      = some (JVal.list [JVal.obj [("text", JVal.str "hi")]]) ∧
    (∀ ev ∈ (process_payload [("code", JVal.num 1000),
        ("result", JVal.list [JVal.obj [("text", JVal.str "hi")]])] 0 "").forwarded,
      ev = ("hi", true)) ∧
    (process_payload scenario_payload 3 "x").forwarded = [] :=
  ⟨rfl,
   fun ev hev => extraction_first_element_rule.1
     [("code", JVal.num 1000),
      ("result", JVal.list [JVal.obj [("text", JVal.str "hi")]])] 0 ""
     (JVal.obj [("text", JVal.str "hi")]) [] ev hev rfl,
   extraction_first_element_rule.2.2 3 "x"⟩

/-- Claim C4: a pair is passed to `_send_text` only when the extracted text
is non-empty and differs from the current `last_text`, and `last_text` is
then updated to that text; consequently, over any run of decoded payloads
all carrying the same non-empty text, that text is forwarded exactly once
(until a different text would arrive). -/
theorem dedup_forward_once :
    (∀ p : List (String × JVal), ∀ sid : Int, ∀ lt : String,
      ∀ ev ∈ (process_payload p sid lt).forwarded,
        ev.1 ≠ "" ∧ ev.1 ≠ lt ∧ (process_payload p sid lt).last_text = ev.1) ∧
    (∀ ps : List (List (String × JVal)), ∀ sid : Int, ∀ lt t : String,
      t ≠ "" → t ≠ lt → ps ≠ [] → (∀ p ∈ ps, payloadText p = some t) →
      (process_payloads ps sid lt).1.map Prod.fst = [t] ∧
      (process_payloads ps sid lt).2.2 = t) := by
  constructor
  · intro p sid lt ev hev
    by_cases hc : isCode1000 (jLookup p "code") = true
    · cases hres : jLookup p "result" with
      | none =>
        rw [process_payload_noresult p sid lt hc hres] at hev
        simp at hev
      | some r =>
        by_cases hyes : (extract_text_final r).1 ≠ "" ∧ (extract_text_final r).1 ≠ lt
        · rw [process_payload_emit p sid lt r hc hres hyes] at hev ⊢
          simp only [List.mem_singleton] at hev
          subst hev
          exact ⟨hyes.1, hyes.2, rfl⟩
        · rw [process_payload_skip p sid lt r hc hres hyes] at hev
          simp at hev
    · have hc2 : isCode1000 (jLookup p "code") = false := by
        simpa using hc
      rw [process_payload_error p sid lt hc2] at hev
      simp at hev
  · intro ps sid lt t ht hlt hne hall
    cases ps with
    | nil => exact absurd rfl hne
    | cons p rest =>
      obtain ⟨hc, r, hr, hrt⟩ := payloadText_cases p t (hall p (by simp))
      have hemit := process_payload_emit p sid lt r hc hr (by rw [hrt]; exact ⟨ht, hlt⟩)
      have hsat := process_payloads_saturated sid t rest
        (fun q hq => hall q (by simp [hq]))
      unfold process_payloads
      rw [hemit]
      simp only [hrt, hsat]
      simp [hrt]

/-- Witness for C4: two identical `{"code":1000, "result":{"text":"hi"}}`
payloads forward "hi" exactly once. -/
theorem dedup_forward_once_witness :
    ("hi" : String) ≠ "" ∧ ("hi" : String) ≠ "" ∧
    ([[("code", JVal.num 1000), ("result", JVal.obj [("text", JVal.str "hi")])],
      [("code", JVal.num 1000), ("result", JVal.obj [("text", JVal.str "hi")])]]
        : List (List (String × JVal))) ≠ [] ∧
    ((process_payloads
        [[("code", JVal.num 1000), ("result", JVal.obj [("text", JVal.str "hi")])],
         [("code", JVal.num 1000), ("result", JVal.obj [("text", JVal.str "hi")])]]
        0 "").1.map Prod.fst = ["hi"] ∧
     (process_payloads
        [[("code", JVal.num 1000), ("result", JVal.obj [("text", JVal.str "hi")])],
         [("code", JVal.num 1000), ("result", JVal.obj [("text", JVal.str "hi")])]]
        0 "").2.2 = "hi") :=
  ⟨by decide, by decide, by simp,
   dedup_forward_once.2
     [[("code", JVal.num 1000), ("result", JVal.obj [("text", JVal.str "hi")])],
      [("code", JVal.num 1000), ("result", JVal.obj [("text", JVal.str "hi")])]]
     0 "" "hi" (by decide) (by decide) (by simp)
     (fun p hp => by
        simp only [List.mem_cons, List.not_mem_nil, or_false] at hp
        rcases hp with h1 | h1 <;> rw [h1] <;> rfl)⟩

/-- Claim C10: every Data message actually delivered by `_send_text`
carries text that is non-empty after stripping whitespace; and a
whitespace-only text that passes the de-duplication guard (non-empty and
different from `last_text`) is still forwarded to `_send_text` and updates
`last_text`, yet delivers no Data message. -/
theorem delivered_text_nonblank :
    (∀ p : List (String × JVal), ∀ sid : Int, ∀ lt : String,
      ∀ ev ∈ (process_payload p sid lt).delivered,
        stripIsEmpty ev.text = false) ∧
    (∀ p : List (String × JVal), ∀ sid : Int, ∀ lt : String, ∀ r : JVal,
      isCode1000 (jLookup p "code") = true →
      jLookup p "result" = some r →
      (extract_text_final r).1 ≠ "" →
      (extract_text_final r).1 ≠ lt →
      stripIsEmpty (extract_text_final r).1 = true →
      (process_payload p sid lt).delivered = [] ∧
      (process_payload p sid lt).forwarded = [extract_text_final r] ∧
      (process_payload p sid lt).last_text = (extract_text_final r).1) := by
  constructor
  · intro p sid lt ev hev
    by_cases hc : isCode1000 (jLookup p "code") = true
    · cases hres : jLookup p "result" with
      | none =>
        rw [process_payload_noresult p sid lt hc hres] at hev
        simp at hev
      | some r =>
        by_cases hyes : (extract_text_final r).1 ≠ "" ∧ (extract_text_final r).1 ≠ lt
        · rw [process_payload_emit p sid lt r hc hres hyes] at hev
          simp only at hev
          unfold send_text at hev
          by_cases hstrip : stripIsEmpty (extract_text_final r).1 = true
          · rw [if_pos hstrip] at hev
            simp at hev
          · rw [if_neg hstrip] at hev
            simp only [List.mem_singleton] at hev
            subst hev
            simpa using hstrip
        · rw [process_payload_skip p sid lt r hc hres hyes] at hev
          simp at hev
    · have hc2 : isCode1000 (jLookup p "code") = false := by
        simpa using hc
      rw [process_payload_error p sid lt hc2] at hev
      simp at hev
  · intro p sid lt r hc hr hne hdiff hstrip
    rw [process_payload_emit p sid lt r hc hr ⟨hne, hdiff⟩]
    refine ⟨?_, rfl, rfl⟩
    unfold send_text
    rw [if_pos hstrip]

/-- Witness for C10 at `{"code":1000, "result":{"text":" "}}` with empty
`last_text`: the single-space text passes the guard and updates
`last_text`, but nothing is delivered. -/
theorem delivered_text_nonblank_witness :
    isCode1000 (jLookup [("code", JVal.num 1000),
        ("result", JVal.obj [("text", JVal.str " ")])] "code") = true ∧
    jLookup [("code", JVal.num 1000),
        ("result", JVal.obj [("text", JVal.str " ")])] "result"
      = some (JVal.obj [("text", JVal.str " ")]) ∧
    stripIsEmpty " " = true ∧
    ((process_payload [("code", JVal.num 1000),
        ("result", JVal.obj [("text", JVal.str " ")])] 0 "").delivered = [] ∧
     (process_payload [("code", JVal.num 1000),
        ("result", JVal.obj [("text", JVal.str " ")])] 0 "").forwarded
        = [(" ", false)] ∧
     (process_payload [("code", JVal.num 1000),
        ("result", JVal.obj [("text", JVal.str " ")])] 0 "").last_text = " ") :=
  ⟨rfl, rfl, by decide,
   delivered_text_nonblank.2 [("code", JVal.num 1000),
      ("result", JVal.obj [("text", JVal.str " ")])] 0 ""
     (JVal.obj [("text", JVal.str " ")]) rfl rfl (by decide) (by decide) (by decide)⟩

end Asr
